import Mathlib

/-!
Verification of the DatasetPipeline format-detection engine.

Shallow embedding of the format-detection and normalization chain:
`app/helpers/regex_dict.py`, `app/format/{base,sft,dpo,conv,merger}.py`,
`app/models/conv.py`, `app/helpers/types.py`, `app/constants.py`.

Conventions of the embedding:
- Python dicts with string values are association lists in insertion order
  (`Dict`); dict construction from pairs uses `pyDict` (last write wins,
  first position kept), dict equality uses `dictEqB` (key-set equality,
  order-insensitive, as Python `==` on dicts).
- Machine-level randomness (`randint` sampling of `dict_repr`) is modelled
  by an index parameter reduced modulo the dataset length; `randint(0, -1)`
  on an empty dataset raises, modelled as `Except.error`.
- Fallible Python code (KeyError / AttributeError / IndexError / ValueError)
  is modelled in `Except String`.
- `re.search` with `re.IGNORECASE` is modelled by a small regex AST with
  Brzozowski derivatives; search is unanchored (tries every start position)
  unless the pattern starts with `^`.
-/

namespace DatasetPipeline

/-! ## Constants (`app/constants.py`) -/

/-- `MessageRole`: system / user / assistant. -/
inductive Role where
  | system
  | user
  | assistant
deriving DecidableEq, Repr

/-- `MessageRole.value` (the `str` payload of the enum). -/
def Role.value : Role → String
  | .system => "system"
  | .user => "user"
  | .assistant => "assistant"

/-- `DPOColumns`: chosen / rejected / user / system. -/
inductive DPOCol where
  | chosen
  | rejected
  | user
  | system
deriving DecidableEq, Repr

/-- `DPOColumns.value`. -/
def DPOCol.value : DPOCol → String
  | .chosen => "chosen"
  | .rejected => "rejected"
  | .user => "user"
  | .system => "system"

/-! ## Python dict / record model -/

/-- A Python dict with string keys and string values (a turn or message
object), as an association list in insertion order. -/
abbrev Dict := List (String × String)

/-- A column value: either a string, or a list of turn/message dicts
(the two value shapes the format engine manipulates). -/
inductive Value where
  | vstr (s : String)
  | vlist (l : List Dict)
deriving DecidableEq, Repr

/-- One row of a dataset: a dict from column name to value, in column
order. -/
abbrev Record := List (String × Value)

/-- A dataset: the ordered list of its rows. -/
abbrev Dataset := List Record

/-- `d[k]` as an option: first binding of key `k`. -/
def dictGet (d : Dict) (k : String) : Option String :=
  (d.find? (fun kv => kv.1 == k)).map (·.2)

/-- `d[k]` raising `KeyError` when absent. -/
def dictGetE (d : Dict) (k : String) : Except String String :=
  match dictGet d k with
  | some v => .ok v
  | none => .error ("KeyError: " ++ k)

/-- Record (row) lookup by column name. -/
def recGet (r : Record) (k : String) : Option Value :=
  (r.find? (fun kv => kv.1 == k)).map (·.2)

/-- Record lookup raising `KeyError` when absent. -/
def recGetE (r : Record) (k : String) : Except String Value :=
  match recGet r k with
  | some v => .ok v
  | none => .error ("KeyError: " ++ k)

/-- Insert into a Python dict: overwrite in place if the key exists,
append otherwise (Python dict assignment semantics). -/
def pyInsert (d : List (α × β)) (k : α) (v : β) [DecidableEq α] : List (α × β) :=
  match d with
  | [] => [(k, v)]
  | (k', v') :: rest => if k' = k then (k, v) :: rest else (k', v') :: pyInsert rest k v

/-- `dict(pairs)`: fold pairs into a dict, first position kept, last
write wins. -/
def pyDict (pairs : List (α × β)) [DecidableEq α] : List (α × β) :=
  pairs.foldl (fun acc kv => pyInsert acc kv.1 kv.2) []

/-- Assoc-list lookup with decidable key equality (keys of a `pyDict`
result are distinct, so the first binding is the binding). -/
def alGet (d : List (α × β)) (k : α) [DecidableEq α] : Option β :=
  (d.find? (fun kv => kv.1 = k)).map (·.2)

/-- Update a record the way `datasets.Dataset.map` merges the returned
dict: existing columns are overwritten in place, new columns appended. -/
def pyUpdate (r : Record) (upd : List (String × Value)) : Record :=
  upd.foldl (fun acc kv => pyInsert acc kv.1 kv.2) r

/-- Python `==` on two string-valued dicts: same key set, same value at
each key (insertion order is irrelevant for dict equality). -/
def dictEqB (a b : Dict) : Bool :=
  (a.map (·.1)).all (fun k => dictGet b k == dictGet a k)
    && (b.map (·.1)).all (fun k => dictGet a k == dictGet b k)

/-- First-occurrence de-duplication keeping elements not seen before
(helper for distinct counting). -/
def uniqFirstAux [BEq α] (seen : List α) : List α → List α
  | [] => []
  | x :: xs => if seen.contains x then uniqFirstAux seen xs else x :: uniqFirstAux (x :: seen) xs

/-- Distinct elements in first-occurrence order. -/
def uniqFirst [BEq α] (l : List α) : List α := uniqFirstAux [] l

/-! ## Regex engine (`re.search` with `re.IGNORECASE`) -/

/-- Regular expression AST covering the pattern language used by the
pattern-role tables (literals, `.`, `*`, concatenation; alternation
arises from derivatives). -/
inductive Regex where
  | fail
  | eps
  | char (c : Char)
  | dot
  | seq (a b : Regex)
  | alt (a b : Regex)
  | star (a : Regex)
deriving DecidableEq, Repr

/-- Case-insensitive character comparison (`re.IGNORECASE`). -/
def lowerEq (a b : Char) : Bool := a.toLower == b.toLower

/-- Does the regex accept the empty string? -/
def nullable : Regex → Bool
  | .fail => false
  | .eps => true
  | .char _ => false
  | .dot => false
  | .seq a b => nullable a && nullable b
  | .alt a b => nullable a || nullable b
  | .star _ => true

/-- Brzozowski derivative with respect to one character,
case-insensitively. -/
def rderiv : Regex → Char → Regex
  | .fail, _ => .fail
  | .eps, _ => .fail
  | .char c, d => if lowerEq c d then .eps else .fail
  | .dot, _ => .eps
  | .seq a b, d => if nullable a then .alt (.seq (rderiv a d) b) (rderiv b d) else .seq (rderiv a d) b
  | .alt a b, d => .alt (rderiv a d) (rderiv b d)
  | .star a, d => .seq (rderiv a d) (.star a)

/-- Does the regex match some prefix of the character list (a `re.match`
at this position)? -/
def matchesPre (r : Regex) : List Char → Bool
  | [] => nullable r
  | c :: cs => nullable r || matchesPre (rderiv r c) cs

/-- Does the regex match starting at some position (the unanchored part
of `re.search`)? -/
def searchSuffix (r : Regex) : List Char → Bool
  | [] => matchesPre r []
  | c :: cs => matchesPre r (c :: cs) || searchSuffix r cs

/-- A compiled pattern: `anchored` records a leading `^`. -/
structure Pattern where
  anchored : Bool
  re : Regex
deriving DecidableEq, Repr

/-- `re.search(pattern, item, re.IGNORECASE)`: anchored patterns must
match at the start, unanchored ones anywhere. -/
def reSearch (p : Pattern) (s : String) : Bool :=
  if p.anchored then matchesPre p.re s.toList else searchSuffix p.re s.toList

/-- Literal string as a regex. -/
def litRe (s : String) : Regex :=
  s.toList.foldr (fun c r => .seq (.char c) r) .eps

/-- Pattern `lit` (no metacharacters), e.g. `"message_1"`. -/
def patLit (s : String) : Pattern := ⟨false, litRe s⟩

/-- Pattern `lit.*`, e.g. `"human.*"`. -/
def patLitStar (s : String) : Pattern := ⟨false, .seq (litRe s) (.star .dot)⟩

/-- Pattern `^lit.*`, e.g. `"^prompt.*"`. -/
def patAnchStar (s : String) : Pattern := ⟨true, .seq (litRe s) (.star .dot)⟩

/-! ## `RegexDict` (`app/helpers/regex_dict.py`) -/

/-- `RegexDict.get(item, default=None)`: the value of the first pattern
in table (insertion) order whose regex search matches the item;
`none` when no pattern matches (`__getitem__` raises `KeyError`, `get`
returns the default). -/
def regexDictGet (table : List (Pattern × α)) (item : String) : Option α :=
  match table with
  | [] => none
  | (p, v) :: rest => if reSearch p item then some v else regexDictGet rest item

theorem regexDictGet_eq_find (table : List (Pattern × α)) (item : String) :
    regexDictGet table item = (table.find? (fun pv => reSearch pv.1 item)).map Prod.snd := by
  induction table with
  | nil => rfl
  | cons hd tl ih =>
    obtain ⟨p, v⟩ := hd
    by_cases h : reSearch p item
    · simp [regexDictGet, List.find?, h]
    · simp only [Bool.not_eq_true] at h
      simp [regexDictGet, List.find?, h, ih]

theorem searchSuffix_iff_drop (r : Regex) (s : List Char) :
    searchSuffix r s = true ↔ ∃ i, matchesPre r (s.drop i) = true := by
  induction s with
  | nil =>
    simp only [searchSuffix, List.drop_nil]
    exact ⟨fun h => ⟨0, h⟩, fun ⟨_, h⟩ => h⟩
  | cons c cs ih =>
    simp only [searchSuffix, Bool.or_eq_true, ih]
    constructor
    · rintro (h | ⟨i, h⟩)
      · exact ⟨0, h⟩
      · exact ⟨i + 1, h⟩
    · rintro ⟨i, h⟩
      cases i with
      | zero => exact Or.inl h
      | succ j => exact Or.inr ⟨j, h⟩

/-- Claim C10: the pattern lookup used by the SFT and Preference-Pair
classifiers returns the value of the first pattern, in table insertion
order, whose regex matches case-insensitively anywhere inside the
column name (unanchored substring search, not a full match), and the
default `none` when no pattern matches; consequently `input.*` also
claims a column merely containing `input` in the middle of its name. -/
theorem C10_regexdict_first_unanchored :
    (∀ (table : List (Pattern × Role)) (item : String),
        regexDictGet table item
          = (table.find? (fun pv => reSearch pv.1 item)).map Prod.snd)
    ∧ (∀ (r : Regex) (s : String),
        reSearch ⟨false, r⟩ s = true ↔ ∃ i, matchesPre r (s.toList.drop i) = true)
    ∧ regexDictGet [(patLitStar "input", Role.user)] "model_input_ids" = some Role.user
    ∧ regexDictGet [(patLitStar "input", Role.user)] "Raw_INPUT" = some Role.user
    ∧ regexDictGet [(patLitStar "input", Role.user)] "question" = none := by
  refine ⟨regexDictGet_eq_find, fun r s => ?_, by decide, by decide, by decide⟩
  simpa [reSearch] using searchSuffix_iff_drop r s.toList

/-! ## Ordered-regex column binding
(`SFTFormat._get_role_col_map`, regex branch, and `DPOFormat._get_col_map`) -/

/-- The shared claim loop: walk columns in order; for each column look it
up in the pattern table; on a hit record `(role, column)` and rebuild the
table without every pattern mapped to that role. -/
def claimColumns [DecidableEq α] (table : List (Pattern × α)) :
    List String → List (α × String)
  | [] => []
  | col :: cols =>
    match regexDictGet table col with
    | none => claimColumns table cols
    | some key => (key, col) :: claimColumns (table.filter (fun kv => kv.2 ≠ key)) cols

theorem regexDictGet_mem_values [DecidableEq α] {table : List (Pattern × α)}
    {item : String} {k : α} (h : regexDictGet table item = some k) :
    k ∈ table.map Prod.snd := by
  induction table with
  | nil => simp [regexDictGet] at h
  | cons hd tl ih =>
    obtain ⟨p, v⟩ := hd
    by_cases hs : reSearch p item
    · simp [regexDictGet, hs] at h
      simp [h]
    · simp only [Bool.not_eq_true] at hs
      simp only [regexDictGet, hs, Bool.false_eq_true, if_false] at h
      exact List.mem_cons_of_mem _ (ih h)

theorem claimColumns_roles_subset [DecidableEq α] (cols : List String)
    (table : List (Pattern × α)) {k : α}
    (h : k ∈ (claimColumns table cols).map Prod.fst) : k ∈ table.map Prod.snd := by
  induction cols generalizing table with
  | nil => simp [claimColumns] at h
  | cons c cs ih =>
    simp only [claimColumns] at h
    cases hg : regexDictGet table c with
    | none => rw [hg] at h; exact ih table h
    | some key =>
      rw [hg] at h
      simp only [List.map_cons, List.mem_cons] at h
      rcases h with rfl | h
      · exact regexDictGet_mem_values hg
      · have hf := ih (table.filter (fun kv => kv.2 ≠ key)) h
        simp only [List.mem_map] at hf ⊢
        obtain ⟨kv, hkv, rfl⟩ := hf
        exact ⟨kv, List.mem_of_mem_filter hkv, rfl⟩

theorem claimColumns_cols_subset [DecidableEq α] (cols : List String)
    (table : List (Pattern × α)) {c : String}
    (h : c ∈ (claimColumns table cols).map Prod.snd) : c ∈ cols := by
  induction cols generalizing table with
  | nil => simp [claimColumns] at h
  | cons x xs ih =>
    simp only [claimColumns] at h
    cases hg : regexDictGet table x with
    | none => rw [hg] at h; exact List.mem_cons_of_mem _ (ih table h)
    | some key =>
      rw [hg] at h
      simp only [List.map_cons, List.mem_cons] at h
      rcases h with rfl | h
      · exact List.mem_cons_self _ _
      · exact List.mem_cons_of_mem _ (ih _ h)

theorem claimColumns_roles_nodup [DecidableEq α] (cols : List String)
    (table : List (Pattern × α)) :
    ((claimColumns table cols).map Prod.fst).Nodup := by
  induction cols generalizing table with
  | nil => simp [claimColumns]
  | cons c cs ih =>
    simp only [claimColumns]
    cases hg : regexDictGet table c with
    | none => exact ih table
    | some key =>
      simp only [List.map_cons, List.nodup_cons]
      refine ⟨fun hmem => ?_, ih _⟩
      have := claimColumns_roles_subset cs (table.filter (fun kv => kv.2 ≠ key)) hmem
      simp only [List.mem_map] at this
      obtain ⟨kv, hkv, hkey⟩ := this
      have hne := List.of_mem_filter hkv
      simp only [decide_eq_true_eq] at hne
      exact hne hkey

theorem claimColumns_cols_nodup [DecidableEq α] (cols : List String)
    (table : List (Pattern × α)) (hnd : cols.Nodup) :
    ((claimColumns table cols).map Prod.snd).Nodup := by
  induction cols generalizing table with
  | nil => simp [claimColumns]
  | cons c cs ih =>
    simp only [List.nodup_cons] at hnd
    simp only [claimColumns]
    cases hg : regexDictGet table c with
    | none => exact ih table hnd.2
    | some key =>
      simp only [List.map_cons, List.nodup_cons]
      refine ⟨fun hmem => ?_, ih _ hnd.2⟩
      exact hnd.1 (claimColumns_cols_subset cs _ hmem)

/-- Claim C4: the ordered-regex column-binding algorithm shared by the
SFT and Preference-Pair classifiers binds at most one role to any source
column and lets each role be claimed by at most one column: the claimed
roles are pairwise distinct (every remaining pattern of a claimed role is
filtered out before later columns are considered), and, when the source
columns are distinct (as dict keys always are), the claimed columns are
pairwise distinct as well. -/
theorem C4_claim_algorithm_at_most_once [DecidableEq α]
    (table : List (Pattern × α)) (cols : List String) (hnd : cols.Nodup) :
    ((claimColumns table cols).map Prod.fst).Nodup
      ∧ ((claimColumns table cols).map Prod.snd).Nodup :=
  ⟨claimColumns_roles_nodup cols table, claimColumns_cols_nodup cols table hnd⟩

/-! ## `BaseFormat` plumbing (`app/format/base.py`) -/

/-- `rnd_ix = randint(0, len(dataset) - 1); dict_repr = dataset[rnd_ix]`:
the random draw is modelled by an arbitrary index taken modulo the
length; on an empty dataset `randint(0, -1)` raises `ValueError`. -/
def sampleRecord (ds : Dataset) (ix : Nat) : Except String Record :=
  match ds with
  | [] => .error "ValueError: empty range in randrange"
  | _ => .ok (ds.getD (ix % ds.length) [])

/-- `is_conv_type` (`app/helpers/types.py`): a non-empty list of dicts
each having 2 or 3 items, all keys and values strings (the latter holds
by construction in this embedding, where `Dict` values are strings).
A plain string is iterable but its items are characters, never dicts,
so it is never conv-typed. -/
def isConvType : Value → Bool
  | .vstr _ => false
  | .vlist l => decide (1 ≤ l.length) && l.all (fun t => t.length = 2 || t.length = 3)

/-- `BaseFormat.get_conv_columns`: columns of the sampled record whose
value is conv-typed. -/
def getConvColumns (r : Record) : List String :=
  (r.filter (fun kv => isConvType kv.2)).map (·.1)

/-- Effectful `List.mapM` specialised to `Except String` (the row-wise
`Dataset.map`, where any raised exception aborts the map). -/
def mapME (f : α → Except String β) : List α → Except String (List β)
  | [] => .ok []
  | x :: xs => do
    let y ← f x
    let ys ← mapME f xs
    .ok (y :: ys)

theorem sampleRecord_mem (ds : Dataset) (ix : Nat) (hne : ds ≠ []) :
    ∃ rep, sampleRecord ds ix = .ok rep ∧ rep ∈ ds := by
  match ds with
  | [] => exact absurd rfl hne
  | r :: rest =>
    refine ⟨(r :: rest).getD (ix % (r :: rest).length) [], rfl, ?_⟩
    have hlt : ix % (r :: rest).length < (r :: rest).length :=
      Nat.mod_lt _ (by simp)
    rw [List.getD_eq_getElem _ _ hlt]
    exact List.getElem_mem _

theorem ok_bind (a : α) (f : α → Except String β) :
    (Except.ok a : Except String α) >>= f = f a := rfl

theorem mapME_map_ok (f : α → Except String β) (g : γ → α) (h : γ → β)
    (H : ∀ t, f (g t) = .ok (h t)) (l : List γ) :
    mapME f (l.map g) = .ok (l.map h) := by
  induction l with
  | nil => rfl
  | cons x xs ih =>
    simp only [List.map_cons, mapME, H x, ih, ok_bind]

/-! ## Default pattern-role tables

`PATTERN_ROLE_MAP` in `app/format/sft.py`. The Python dict literal lists
the key `"input.*"` twice (first mapped to `USER`, later to `SYSTEM`):
dict-literal semantics keep the first position with the last value, so
the table has `input.* -> SYSTEM` at position 5. -/
def sftDefaultTable : List (Pattern × Role) :=
  [ (patLitStar "human", .user),
    (patLitStar "question", .user),
    (patLitStar "user", .user),
    (patLitStar "dialogue", .user),
    (patLitStar "input", .system),
    (patAnchStar "prompt", .user),
    (patAnchStar "instruction", .user),
    (patLit "message_1", .user),
    (patLitStar "source", .user),
    (patLitStar "response", .assistant),
    (patLitStar "output", .assistant),
    (patLitStar "assistant", .assistant),
    (patLitStar "answer", .assistant),
    (patLitStar "summary", .assistant),
    (patLitStar "gpt", .assistant),
    (patLitStar "support", .assistant),
    (patLit "message_2", .assistant),
    (patLitStar "target", .assistant),
    (patLitStar "system", .system),
    (patLitStar "instruction", .system) ]

/-- `PATTERN_ROLE_MAP` in `app/format/dpo.py`. -/
def dpoDefaultTable : List (Pattern × DPOCol) :=
  [ (patLitStar "chosen", .chosen),
    (patLitStar "rejected", .rejected),
    (patLitStar "trajectory", .user),
    (patLitStar "instruction", .user),
    (patLitStar "human", .user),
    (patLitStar "question", .user),
    (patAnchStar "prompt", .user),
    (patLitStar "user", .user),
    (patLitStar "system", .system) ]

/-! ## SFT classifier (`app/format/sft.py`) -/

/-- `SFTConfig` (regex-relevant fields; `use_openai` selects the
external-judge branch, which performs a network call). -/
structure SFTConfig where
  use_openai : Bool := false
  column_role_map : List (Pattern × Role) := sftDefaultTable

/-- The state an `SFTFormat` instance carries after `__init__`. -/
structure SFTState where
  dictRepr : Record
  roleColMap : List (Role × String)

/-- `SFTFormat.__init__`: sample `dict_repr`, then dereference
`config.column_role_map` (an `AttributeError` when the config is `None`)
and compute `role_col_map = dict(role_col)` via the claim loop.
The `use_openai = True` branch calls the external judge model over the
network and is not modelled. -/
def sftInit (cfg : Option SFTConfig) (ds : Dataset) (ix : Nat) :
    Except String SFTState := do
  let rep ← sampleRecord ds ix
  match cfg with
  | none => .error "AttributeError: NoneType object has no attribute column_role_map"
  | some c =>
    if c.use_openai then
      .error "call_openai_api: external judge call, not modelled"
    else
      .ok ⟨rep, pyDict (claimColumns c.column_role_map (rep.map (·.1)))⟩

/-- `SFTFormat.is_this_format`: `assistant` and `user` must be bound and
at least two roles bound in total. -/
def sftIsThisFormat (rcm : List (Role × String)) : Bool :=
  if (alGet rcm .assistant).isNone then false
  else if (alGet rcm .user).isNone then false
  else if 2 ≤ rcm.length then true
  else false

/-- `SFTFormat._make_messages`: one message per bound role, in the fixed
order system, user, assistant; content is the row's value in the bound
column (all bound columns in the verified claims hold strings; a
non-string value would be embedded raw by the source and is not
modelled). -/
def makeMessages (rcm : List (Role × String)) (data : Record) :
    Except String (List Dict) :=
  mapME
    (fun x => do
      match alGet rcm x with
      | none => .error "unreachable: roles are filtered to be bound"
      | some col =>
        let v ← recGetE data col
        match v with
        | .vstr s => .ok [("role", x.value), ("content", s)]
        | .vlist _ => .error "model restriction: non-string message content")
    ([Role.system, Role.user, Role.assistant].filter (fun x => (alGet rcm x).isSome))

/-- One row of `SFTFormat._format`'s `dataset.map`: add the `"messages"`
column. -/
def sftFormatRow (st : SFTState) (row : Record) : Except String Record := do
  let msgs ← makeMessages st.roleColMap row
  .ok (pyUpdate row [("messages", .vlist msgs)])

/-- `SFTFormat._format`: map every row when the format is detected,
otherwise pass the dataset through. -/
def sftStageFormat (st : SFTState) (ds : Dataset) : Except String Dataset :=
  if sftIsThisFormat st.roleColMap then mapME (sftFormatRow st) ds
  else .ok ds

/-- The SFT stage end to end: construct on the dataset then `format()`. -/
def sftStage (cfg : Option SFTConfig) (ds : Dataset) (ix : Nat) :
    Except String Dataset := do
  let st ← sftInit cfg ds ix
  sftStageFormat st ds

/-- A question/answer row. -/
def mkRowQA (q a : String) : Record := [("question", .vstr q), ("answer", .vstr a)]

theorem claimColumns_qa :
    pyDict (claimColumns sftDefaultTable ["question", "answer"])
      = [(Role.user, "question"), (Role.assistant, "answer")] := by decide

/-- Claim C3: on a dataset whose records have exactly the columns
`question` and `answer`, the SFT classifier binds `question -> user` and
`answer -> assistant`, is applicable, and maps each record to
`[{"role":"user","content":question},{"role":"assistant","content":answer}]`
in exactly that order (the same binding results when the two columns
appear in the reverse order). -/
theorem C3_sft_question_answer (qas : List (String × String))
    (q a : String) (ix : Nat) :
    (∃ st, sftInit (some {}) (((q, a) :: qas).map (fun t => mkRowQA t.1 t.2)) ix = .ok st
      ∧ st.roleColMap = [(Role.user, "question"), (Role.assistant, "answer")]
      ∧ sftIsThisFormat st.roleColMap = true
      ∧ sftStageFormat st (((q, a) :: qas).map (fun t => mkRowQA t.1 t.2))
          = .ok (((q, a) :: qas).map (fun t =>
              mkRowQA t.1 t.2
                ++ [("messages", .vlist
                      [[("role", "user"), ("content", t.1)],
                       [("role", "assistant"), ("content", t.2)]])])))
    ∧ pyDict (claimColumns sftDefaultTable ["answer", "question"])
        = [(Role.assistant, "answer"), (Role.user, "question")] := by
  constructor
  · have hne : (((q, a) :: qas).map (fun t => mkRowQA t.1 t.2)) ≠ [] := by simp
    obtain ⟨rep, hs, hmem⟩ := sampleRecord_mem _ ix hne
    simp only [List.mem_map] at hmem
    obtain ⟨t, _, rfl⟩ := hmem
    refine ⟨⟨mkRowQA t.1 t.2, [(Role.user, "question"), (Role.assistant, "answer")]⟩, ?_, rfl, ?_, ?_⟩
    · simp only [sftInit, hs, ok_bind]
      have hcc : pyDict (claimColumns ({} : SFTConfig).column_role_map
          ((mkRowQA t.1 t.2).map (·.1)))
          = [(Role.user, "question"), (Role.assistant, "answer")] := claimColumns_qa
      simp only [Bool.false_eq_true, if_false, hcc]
    · exact (by decide :
        sftIsThisFormat [(Role.user, "question"), (Role.assistant, "answer")] = true)
    · simp only [sftStageFormat]
      rw [if_pos (by decide :
        sftIsThisFormat [(Role.user, "question"), (Role.assistant, "answer")] = true)]
      refine mapME_map_ok _ _ _ (fun u => ?_) _
      rfl
  · decide

/-- Witness for C4 at the default SFT table and the columns
`["question", "answer"]`. -/
theorem C4_witness :
    (["question", "answer"] : List String).Nodup
      ∧ ((claimColumns sftDefaultTable ["question", "answer"]).map Prod.fst).Nodup
      ∧ ((claimColumns sftDefaultTable ["question", "answer"]).map Prod.snd).Nodup :=
  ⟨by decide, C4_claim_algorithm_at_most_once sftDefaultTable ["question", "answer"] (by decide)⟩

/-! ## Preference-pair classifier (`app/format/dpo.py`) -/

/-- `DPOConfig` (the pattern-role table). -/
structure DPOConfig where
  column_role_map : List (Pattern × DPOCol) := dpoDefaultTable

/-- The state a `DPOFormat` instance carries after `__init__`. -/
structure DPOState where
  dictRepr : Record
  colMap : List (DPOCol × String)

/-- `DPOFormat.__init__`: sample `dict_repr`, dereference
`config.column_role_map` (an `AttributeError` when the config is `None`),
and compute `col_map = dict(role_col)` via the claim loop. -/
def dpoInit (cfg : Option DPOConfig) (ds : Dataset) (ix : Nat) :
    Except String DPOState := do
  let rep ← sampleRecord ds ix
  match cfg with
  | none => .error "AttributeError: NoneType object has no attribute column_role_map"
  | some c => .ok ⟨rep, pyDict (claimColumns c.column_role_map (rep.map (·.1)))⟩

/-- `DPOFormat.is_this_format`: at least two roles bound, and both
`chosen` and `rejected` bound. -/
def dpoIsThisFormat (cm : List (DPOCol × String)) : Bool :=
  if cm.length < 2 then false
  else if (alGet cm .chosen).isSome && (alGet cm .rejected).isSome then true
  else false

/-- Within-row de-duplication of `_convert_row_to_messages`: keep a
message unless an equal message object (Python dict equality) was already
kept; first-occurrence order preserved. -/
def pyDedupDicts (ms : List Dict) : List Dict :=
  ms.foldl (fun acc m => if acc.any (fun x => dictEqB x m) then acc else acc ++ [m]) []

/-- The messages contributed by one slot of
`_convert_row_to_messages`'s loop: nothing when the role is unbound; the
row's turn list spliced in when the bound column is conv-typed in the
sampled record; otherwise a single message with the canonical role. -/
def rowMessagesFor (st : DPOState) (row : Record) (colType : DPOCol) :
    Except String (List Dict) :=
  match alGet st.colMap colType with
  | none => .ok []
  | some col =>
    if col ∈ getConvColumns st.dictRepr then do
      let v ← recGetE row col
      match v with
      | .vlist l => .ok l
      | .vstr _ => .error "TypeError: conversation column does not hold a list"
    else do
      let v ← recGetE row col
      let role : Role :=
        if colType = .system then .system
        else if colType = .user then .user
        else .assistant
      match v with
      | .vstr s => .ok [[("role", role.value), ("content", s)]]
      | .vlist _ => .error "model restriction: non-string message content"

/-- `DPOFormat._convert_row_to_messages`: walk `[system, user,
assistant_col]`, concatenate the contributions, then de-duplicate. -/
def convertRowToMessages (st : DPOState) (row : Record) (assistantCol : DPOCol) :
    Except String (List Dict) := do
  let ms ← mapME (rowMessagesFor st row) [DPOCol.system, DPOCol.user, assistantCol]
  .ok (pyDedupDicts ms.flatten)

/-- `DPOFormat._convert_chosen_rejected_to_messages`: the dict written
back into the row, with the two parallel message lists. -/
def convertChosenRejected (st : DPOState) (row : Record) :
    Except String (List (String × Value)) := do
  let ch ← convertRowToMessages st row .chosen
  let rj ← convertRowToMessages st row .rejected
  .ok [(DPOCol.chosen.value, .vlist ch), (DPOCol.rejected.value, .vlist rj)]

/-- One row of `DPOFormat._format`'s `dataset.map`. -/
def dpoFormatRow (st : DPOState) (row : Record) : Except String Record := do
  let d ← convertChosenRejected st row
  .ok (pyUpdate row d)

/-- `DPOFormat._format`. -/
def dpoStageFormat (st : DPOState) (ds : Dataset) : Except String Dataset :=
  if dpoIsThisFormat st.colMap then mapME (dpoFormatRow st) ds
  else .ok ds

/-- The DPO stage end to end. -/
def dpoStage (cfg : Option DPOConfig) (ds : Dataset) (ix : Nat) :
    Except String Dataset := do
  let st ← dpoInit cfg ds ix
  dpoStageFormat st ds

/-- A prompt/chosen/rejected row. -/
def mkRowPCR (p c r : String) : Record :=
  [("prompt", .vstr p), ("chosen", .vstr c), ("rejected", .vstr r)]

theorem claimColumns_pcr :
    pyDict (claimColumns dpoDefaultTable ["prompt", "chosen", "rejected"])
      = [(DPOCol.user, "prompt"), (DPOCol.chosen, "chosen"), (DPOCol.rejected, "rejected")] := by
  decide

/-- The canonical DPO output for one prompt/response pair. -/
def pcrMessages (p x : String) : List Dict :=
  [[("role", "user"), ("content", p)], [("role", "assistant"), ("content", x)]]

/-- Claim C2: on records with exactly the string columns `prompt`,
`chosen`, `rejected`, the Preference-Pair classifier is applicable
(`prompt -> user`, `chosen -> chosen`, `rejected -> rejected`) and
produces per record the two lists
`chosen = [{user, p}, {assistant, c}]` and
`rejected = [{user, p}, {assistant, r}]`; since the two messages differ
in their `role` value, the within-row de-dup keeps both even when `p`
equals `c` textually (the `p p r` instance below). -/
theorem C2_dpo_prompt_chosen_rejected (pcrs : List (String × String × String))
    (p c r : String) (ix : Nat) :
    ∃ st, dpoInit (some {}) (((p, c, r) :: pcrs).map (fun t => mkRowPCR t.1 t.2.1 t.2.2)) ix = .ok st
      ∧ st.colMap = [(DPOCol.user, "prompt"), (DPOCol.chosen, "chosen"), (DPOCol.rejected, "rejected")]
      ∧ dpoIsThisFormat st.colMap = true
      ∧ (∀ p' c' r', convertChosenRejected st (mkRowPCR p' c' r')
          = .ok [("chosen", .vlist (pcrMessages p' c')), ("rejected", .vlist (pcrMessages p' r'))])
      ∧ convertRowToMessages st (mkRowPCR p p r) .chosen = .ok (pcrMessages p p)
      ∧ dpoStageFormat st (((p, c, r) :: pcrs).map (fun t => mkRowPCR t.1 t.2.1 t.2.2))
          = .ok (((p, c, r) :: pcrs).map (fun t =>
              [("prompt", .vstr t.1),
               ("chosen", .vlist (pcrMessages t.1 t.2.1)),
               ("rejected", .vlist (pcrMessages t.1 t.2.2))])) := by
  have hne : (((p, c, r) :: pcrs).map (fun t => mkRowPCR t.1 t.2.1 t.2.2)) ≠ [] := by simp
  obtain ⟨rep, hs, hmem⟩ := sampleRecord_mem _ ix hne
  simp only [List.mem_map] at hmem
  obtain ⟨t, _, rfl⟩ := hmem
  refine ⟨⟨mkRowPCR t.1 t.2.1 t.2.2,
      [(DPOCol.user, "prompt"), (DPOCol.chosen, "chosen"), (DPOCol.rejected, "rejected")]⟩,
      ?_, rfl, ?_, ?_, ?_, ?_⟩
  · simp only [dpoInit, hs, ok_bind]
    have hcc : pyDict (claimColumns ({} : DPOConfig).column_role_map
        ((mkRowPCR t.1 t.2.1 t.2.2).map (·.1)))
        = [(DPOCol.user, "prompt"), (DPOCol.chosen, "chosen"), (DPOCol.rejected, "rejected")] :=
      claimColumns_pcr
    rw [hcc]
  · exact (by decide : dpoIsThisFormat
      [(DPOCol.user, "prompt"), (DPOCol.chosen, "chosen"), (DPOCol.rejected, "rejected")] = true)
  · intro p' c' r'
    rfl
  · rfl
  · simp only [dpoStageFormat]
    rw [if_pos (by decide : dpoIsThisFormat
      [(DPOCol.user, "prompt"), (DPOCol.chosen, "chosen"), (DPOCol.rejected, "rejected")] = true)]
    refine mapME_map_ok _ _ _ (fun u => ?_) _
    rfl

/-! ## Conversation-object normalizer
(`app/format/conv.py`, `app/models/conv.py`) -/

/-- `ConvProps` (`app/models/conv.py`). Keys of `roles_map` are the raw
role values observed in the data; `none` stands for a missing cell
(pandas `NaN` mapped through `(x or {}).get(role_key)`). -/
structure ConvProps where
  column : Option String := none
  role_key : Option String := none
  content_key : Option String := none
  has_system : Bool := false
  roles_map : List (Option String × Role) := []
deriving DecidableEq, Repr

/-- `ConvProps.is_valid`: a non-empty roles map and both keys resolved. -/
def ConvProps.isValid (p : ConvProps) : Bool :=
  !(p.roles_map.isEmpty || p.role_key.isNone || p.content_key.isNone)

/-- `ConvProps.standardize`: rewrite each turn to
`{"role": roles_map[m[role_key]].value, "content": m[content_key]}`;
a missing role key, an unseen role value, or a missing content key
raises `KeyError`. An invalid props object returns the conversation
unchanged. -/
def standardize (p : ConvProps) (conv : List Dict) : Except String (List Dict) :=
  if p.isValid = false then .ok conv
  else
    match p.role_key, p.content_key with
    | some rk, some ck =>
      mapME
        (fun m => do
          let rv ← dictGetE m rk
          match alGet p.roles_map (some rv) with
          | none => .error ("KeyError: unseen role value " ++ rv)
          | some role => do
            let cv ← dictGetE m ck
            .ok [("role", role.value), ("content", cv)])
        conv
    | _, _ => .ok conv

/-- `chain(*dataset[column][:1000])`: the turns of the first 1000
conversations, flattened into one row-per-turn table. -/
def flatSample (convs : List (List Dict)) : List Dict := (convs.take 1000).flatten

/-- The columns of the flattened turn table, in order of first
appearance of each key (pandas `DataFrame` column construction). -/
def colOrderAux (acc : List String) : List Dict → List String
  | [] => acc
  | t :: ts => colOrderAux (acc ++ (t.map (·.1)).filter (fun k => !acc.contains k)) ts

/-- Column order of `pd.DataFrame(chain(*...))`. -/
def colOrder (turns : List Dict) : List String := colOrderAux [] turns

/-- `conv_df[k].nunique()`: distinct non-missing values of key `k`
across the turn table (pandas `nunique` ignores `NaN`). -/
def nunique (turns : List Dict) (k : String) : Nat :=
  (uniqFirst (turns.filterMap (fun t => dictGet t k))).length

/-- Stable insertion into an ascending-by-key list (ties keep earlier
elements first). -/
def insertAsc (key : α → Nat) (x : α) : List α → List α
  | [] => [x]
  | y :: ys => if key x < key y then x :: y :: ys else y :: insertAsc key x ys

/-- Stable ascending sort by a `Nat` key. `pandas.sort_values` uses an
unstable quicksort whose tie order is unspecified; no verified claim
depends on a tie. -/
def sortAsc (key : α → Nat) : List α → List α
  | [] => []
  | x :: xs => insertAsc key x (sortAsc key xs)

/-- `ConversationalFormat._get_role_and_content_key`, role-key half:
the first column whose distinct-value count is 1, 2 or 3
(`safe_getitem(..., 0)` turns an empty candidate list into `None`). -/
def roleKeyOf (turns : List Dict) : Option String :=
  ((colOrder turns).filter (fun k =>
    nunique turns k = 1 ∨ nunique turns k = 2 ∨ nunique turns k = 3)).head?

/-- `ConversationalFormat._get_role_and_content_key`, content-key half:
the remaining column with the highest distinct-value count (ascending
sort, last element; `safe_getitem(..., -1)` turns an empty remainder
into `None`), or `None` when no role key was found. -/
def contentKeyOf (turns : List Dict) : Option String :=
  match roleKeyOf turns with
  | none => none
  | some rk => (sortAsc (fun k => nunique turns k) ((colOrder turns).erase rk)).getLast?

/-- `ConversationalFormat._get_role_and_content_key`. -/
def getRoleAndContentKey (turns : List Dict) : Option String × Option String :=
  (roleKeyOf turns, contentKeyOf turns)

/-- `roles_df` cell at position `i` of a conversation:
`(x or {}).get(role_key)` applied to the positional turn (missing
positions and missing keys are `None`). -/
def cellAt (rk : Option String) (conv : List Dict) (i : Nat) : Option String :=
  (conv.get? i).bind (fun t => rk.bind (fun k => dictGet t k))

/-- `roles_df.columns.nunique()`: the number of positional columns of
`pd.DataFrame(dataset[column])`, i.e. the longest conversation. -/
def maxLen (convs : List (List Dict)) : Nat :=
  convs.foldl (fun acc c => max acc c.length) 0

/-- `value_counts()....iloc[-1]` after an ascending sort by count: an
element of maximal multiplicity. Among ties the order is unspecified in
the source (pandas sort order); modelled as the last tied distinct
value winning. -/
def mostFrequent [BEq α] (l : List α) : Option α :=
  (uniqFirst l).foldl
    (fun acc x =>
      match acc with
      | none => some x
      | some y => if l.count y ≤ l.count x then some x else some y)
    none

/-- `ConversationalFormat._get_conv_roles`. The single-position branch
mirrors the source's two sequential assignments: the special-case
binding of a system-like literal to `SYSTEM` is immediately overwritten
by the unconditional binding to `USER`. -/
def getConvRoles (convs : List (List Dict)) (p : ConvProps) :
    Except String (List (Option String × Role)) :=
  match p.column with
  | none => .ok []
  | some _ =>
    let rk := p.role_key
    let ncols := maxLen convs
    if p.has_system = true ∧ 3 ≤ ncols then
      let triples := convs.filterMap (fun cv =>
        match cellAt rk cv 0, cellAt rk cv 1, cellAt rk cv 2 with
        | some a, some b, some c => some (a, b, c)
        | _, _, _ => none)
      let cands := triples.filter (fun t =>
        decide (t.1 ≠ t.2.1) && decide (t.2.1 ≠ t.2.2) && decide (t.1 ≠ t.2.2))
      match mostFrequent cands with
      | none => .error "IndexError: iloc[-1] on an empty frame"
      | some (a, b, c) =>
        .ok (pyDict [(some a, Role.system), (some b, Role.user), (some c, Role.assistant)])
    else if ncols = 2 then
      let pairs := convs.filterMap (fun cv =>
        match cellAt rk cv 0, cellAt rk cv 1 with
        | some a, some b => some (a, b)
        | _, _ => none)
      match mostFrequent pairs with
      | none => .error "IndexError: iloc[-1] on an empty frame"
      | some (u, a) => .ok (pyDict [(some u, Role.user), (some a, Role.assistant)])
    else if ncols = 1 then
      match convs with
      | [] => .error "IndexError: iloc[0] on an empty frame"
      | cv :: _ =>
        let v := cellAt rk cv 0
        .ok (Id.run do
          let mut conv_roles : List (Option String × Role) := []
          if v = some "system" ∨ v = some "instruction" ∨ v = some "instructions" then
            conv_roles := [(v, Role.system)]
          conv_roles := [(v, Role.user)]
          return conv_roles)
    else
      .ok []

/-- The `ConvProps` of `_get_conv_prop` just before `roles_map` is
filled in: keys resolved over the 1000-conversation sample and
`has_system` set from the role key's distinct-value count. -/
def convBase (column : String) (convs : List (List Dict)) (rk : String) : ConvProps :=
  { column := some column, role_key := some rk,
    content_key := contentKeyOf (flatSample convs),
    has_system := nunique (flatSample convs) rk = 3, roles_map := [] }

/-- `ConversationalFormat._get_conv_prop` for one conv-typed column:
resolve role and content keys over the 1000-conversation sample, set
`has_system` (`conv_df[None]` raises a `KeyError` when no role key
qualified), then infer the roles map over the full column. -/
def getConvProp (column : String) (convs : List (List Dict)) :
    Except String ConvProps :=
  match roleKeyOf (flatSample convs) with
  | none => .error "KeyError: None is not a column of the turn table"
  | some rk =>
    match getConvRoles convs (convBase column convs rk) with
    | .error e => .error e
    | .ok rmap => .ok { convBase column convs rk with roles_map := rmap }

/-- `ConvConfig` has no fields; it only toggles `has_config`. -/
structure ConvConfig where
deriving DecidableEq, Repr

/-- The state a `ConversationalFormat` instance carries after
`__init__`. -/
structure ConvState where
  dictRepr : Record
  convProps : List ConvProps

/-- `dataset[column]` for a conv column: every row must hold a list. -/
def getColumnConvs (ds : Dataset) (col : String) :
    Except String (List (List Dict)) :=
  mapME
    (fun row => do
      let v ← recGetE row col
      match v with
      | .vlist l => .ok l
      | .vstr _ => .error "TypeError: conversation column does not hold a list")
    ds

/-- `ConversationalFormat.__init__` / `get_conv_props`: sample
`dict_repr`, build one `ConvProps` per conv-typed column and keep the
valid ones. Runs (and can raise) independently of the config. -/
def convInit (ds : Dataset) (ix : Nat) : Except String ConvState := do
  let rep ← sampleRecord ds ix
  let props ← mapME
    (fun col => do
      let convs ← getColumnConvs ds col
      getConvProp col convs)
    (getConvColumns rep)
  .ok ⟨rep, props.filter (fun p => p.isValid)⟩

/-- `ConversationalFormat.is_this_format`. -/
def convIsThisFormat (st : ConvState) : Bool :=
  st.convProps.any (fun p => p.isValid)

/-- Effectful left fold in `Except String` (the sequential per-prop
`dataset.map` loop of `ConversationalFormat._format`). -/
def foldME (f : β → α → Except String β) : β → List α → Except String β
  | b, [] => .ok b
  | b, x :: xs => do
    let c ← f b x
    foldME f c xs

/-- One pass of `ConversationalFormat._format`'s loop: standardize the
prop's column in every row, writing to `single_col or column`. -/
def convApplyProp (singleCol : Option String) (p : ConvProps) (ds : Dataset) :
    Except String Dataset :=
  mapME
    (fun row => do
      match p.column with
      | none => .error "KeyError: None"
      | some col => do
        let v ← recGetE row col
        match v with
        | .vlist l => do
          let std ← standardize p l
          .ok (pyUpdate row [(singleCol.getD col, .vlist std)])
        | .vstr _ => .error "TypeError: conversation column does not hold a list")
    ds

/-- `ConversationalFormat._format`: destination is the shared name
`"messages"` exactly when a single conversation column was detected. -/
def convStageFormat (st : ConvState) (ds : Dataset) : Except String Dataset :=
  let singleCol := if st.convProps.length = 1 then some "messages" else none
  foldME (fun d p => convApplyProp singleCol p d) ds st.convProps

/-- The Conversational stage end to end: `__init__` always runs; an
absent config then short-circuits `format()` to the identity. -/
def convStage (cfg : Option ConvConfig) (ds : Dataset) (ix : Nat) :
    Except String Dataset := do
  let st ← convInit ds ix
  match cfg with
  | none => .ok ds
  | some _ => convStageFormat st ds

/-! ## Helper lemmas for the two-position conversation shape -/

/-- A two-turn conversation with role key `rk`, content key `ck` and
the role-value sequence `(r0, r1)`. -/
def mkConv2 (rk ck r0 r1 h g : String) : List Dict :=
  [[(rk, r0), (ck, h)], [(rk, r1), (ck, g)]]

/-- A sharegpt-style conversation: a human turn then a gpt turn, in
`{"from": ..., "value": ...}` turn dicts. -/
def mkConvHG (h g : String) : List Dict := mkConv2 "from" "value" "human" "gpt" h g

theorem uniqFirstAux_eq_nil [BEq α] (l : List α) (seen : List α)
    (h : ∀ x ∈ l, seen.contains x = true) : uniqFirstAux seen l = [] := by
  induction l generalizing seen with
  | nil => rfl
  | cons x xs ih =>
    have hx := h x (List.mem_cons_self x xs)
    simp only [uniqFirstAux, hx, if_true]
    exact ih seen (fun y hy => h y (List.mem_cons_of_mem x hy))

theorem dictGet_cons_self (k v : String) (t : Dict) :
    dictGet ((k, v) :: t) k = some v := by
  simp [dictGet]

theorem mkConv2_turn_keys {t : Dict} {rk ck r0 r1 h g : String}
    (ht : t ∈ mkConv2 rk ck r0 r1 h g) : t.map Prod.fst = [rk, ck] := by
  simp only [mkConv2, List.mem_cons, List.not_mem_nil, or_false] at ht
  rcases ht with rfl | rfl <;> rfl

theorem colOrderAux_fixed (ts : List Dict) (acc : List String)
    (h : ∀ t ∈ ts, ∀ k ∈ t.map Prod.fst, acc.contains k = true) :
    colOrderAux acc ts = acc := by
  induction ts with
  | nil => rfl
  | cons t ts ih =>
    have hfilter : (t.map Prod.fst).filter (fun k => !acc.contains k) = [] := by
      rw [List.filter_eq_nil_iff]
      intro k hk
      have hc := h t (List.mem_cons_self t ts) k hk
      rw [hc]
      decide
    simp only [colOrderAux, hfilter, List.append_nil]
    exact ih (fun u hu k hk => h u (List.mem_cons_of_mem t hu) k hk)

theorem flatten_shape_keys {rk ck r0 r1 : String} {convs : List (List Dict)}
    (hshape : ∀ cv ∈ convs, ∃ h g, cv = mkConv2 rk ck r0 r1 h g)
    {t : Dict} (ht : t ∈ convs.flatten) : t.map Prod.fst = [rk, ck] := by
  rw [List.mem_flatten] at ht
  obtain ⟨cv, hcv, htc⟩ := ht
  obtain ⟨h, g, rfl⟩ := hshape cv hcv
  exact mkConv2_turn_keys htc

theorem contains_of_mem_pair {k rk ck : String} (hk : k ∈ ([rk, ck] : List String)) :
    ([rk, ck] : List String).contains k = true := by
  simp only [List.mem_cons, List.not_mem_nil, or_false] at hk
  rcases hk with rfl | rfl <;> simp [List.contains]

theorem colOrder_c2 {rk ck r0 r1 : String} {convs : List (List Dict)}
    (hne : convs ≠ [])
    (hshape : ∀ cv ∈ convs, ∃ h g, cv = mkConv2 rk ck r0 r1 h g) :
    colOrder convs.flatten = [rk, ck] := by
  match convs, hne with
  | cv :: rest, _ =>
    obtain ⟨h, g, rfl⟩ := hshape _ (List.mem_cons_self cv rest)
    rw [List.flatten_cons]
    have step : colOrder (mkConv2 rk ck r0 r1 h g ++ rest.flatten)
        = colOrderAux [rk, ck] ([(rk, r1), (ck, g)] :: rest.flatten) := rfl
    rw [step]
    refine colOrderAux_fixed _ _ (fun t ht k hk => ?_)
    have hkeys : t.map Prod.fst = [rk, ck] := by
      rcases List.mem_cons.mp ht with rfl | ht2
      · rfl
      · exact flatten_shape_keys (fun u hu => hshape u (List.mem_cons_of_mem _ hu)) ht2
    rw [hkeys] at hk
    exact contains_of_mem_pair hk

theorem filterMap_vals_c2 {rk ck r0 r1 : String} (l : List (List Dict))
    (hshape : ∀ cv ∈ l, ∃ h g, cv = mkConv2 rk ck r0 r1 h g) :
    l.flatten.filterMap (fun t => dictGet t rk)
      = (l.map (fun _ => ([r0, r1] : List String))).flatten := by
  induction l with
  | nil => rfl
  | cons cv rest ih =>
    obtain ⟨h, g, rfl⟩ := hshape cv (List.mem_cons_self cv rest)
    simp only [List.flatten_cons, List.map_cons, List.filterMap_append]
    rw [ih (fun u hu => hshape u (List.mem_cons_of_mem _ hu))]
    simp only [mkConv2, List.filterMap_cons, dictGet_cons_self]
    rfl

theorem mem_flatten_map_const {l : List (List Dict)} {c : List String} {x : String}
    (hx : x ∈ (l.map (fun _ => c)).flatten) : x ∈ c := by
  rw [List.mem_flatten] at hx
  obtain ⟨u, hu, hxu⟩ := hx
  rw [List.mem_map] at hu
  obtain ⟨_, _, rfl⟩ := hu
  exact hxu

theorem nunique_c2 {rk ck r0 r1 : String} {convs : List (List Dict)}
    (hne : convs ≠ [])
    (hshape : ∀ cv ∈ convs, ∃ h g, cv = mkConv2 rk ck r0 r1 h g)
    (h01 : r0 ≠ r1) : nunique convs.flatten rk = 2 := by
  unfold nunique
  rw [filterMap_vals_c2 convs hshape]
  match convs, hne with
  | cv :: rest, _ =>
    rw [List.map_cons, List.flatten_cons]
    have hc1 : (([] : List String).contains r0) = false := rfl
    have hc2 : (([r0] : List String).contains r1) = false := by
      simp only [List.contains, List.elem_cons, List.elem_nil]
      have : (r1 == r0) = false := beq_eq_false_iff_ne.mpr (Ne.symm h01)
      simp [this]
    have hsub : ∀ x ∈ (rest.map (fun _ => ([r0, r1] : List String))).flatten,
        ([r1, r0] : List String).contains x = true := by
      intro x hx
      have hx2 : x ∈ ([r0, r1] : List String) := mem_flatten_map_const hx
      simp only [List.mem_cons, List.not_mem_nil, or_false] at hx2
      rcases hx2 with rfl | rfl <;> simp [List.contains, List.elem_cons]
    show (uniqFirstAux [] (r0 :: r1
      :: (rest.map (fun _ => ([r0, r1] : List String))).flatten)).length = 2
    rw [uniqFirstAux, if_neg (by rw [hc1]; decide),
      uniqFirstAux, if_neg (by rw [hc2]; decide),
      uniqFirstAux_eq_nil _ _ hsub]
    rfl

theorem maxLen_const {convs : List (List Dict)} (n : Nat) (hne : convs ≠ [])
    (hlen : ∀ cv ∈ convs, cv.length = n) : maxLen convs = n := by
  have aux : ∀ (l : List (List Dict)) (acc : Nat),
      (∀ cv ∈ l, cv.length = n) →
      l.foldl (fun a c => max a c.length) acc = if l.isEmpty then acc else max acc n := by
    intro l
    induction l with
    | nil => intro acc _; rfl
    | cons cv rest ih =>
      intro acc hl
      simp only [List.foldl_cons, List.isEmpty_cons, if_false]
      rw [hl cv (List.mem_cons_self cv rest),
        ih (max acc n) (fun u hu => hl u (List.mem_cons_of_mem _ hu))]
      by_cases hr : rest.isEmpty = true
      · simp [hr]
      · simp only [hr, Bool.false_eq_true, if_false]
        rw [Nat.max_assoc, Nat.max_self]
  unfold maxLen
  rw [aux convs 0 hlen]
  match convs, hne with
  | cv :: rest, _ => simp

theorem cellAt_c2_0 (rk ck r0 r1 h g : String) :
    cellAt (some rk) (mkConv2 rk ck r0 r1 h g) 0 = some r0 := by
  simp [cellAt, mkConv2, dictGet_cons_self]

theorem cellAt_c2_1 (rk ck r0 r1 h g : String) :
    cellAt (some rk) (mkConv2 rk ck r0 r1 h g) 1 = some r1 := by
  simp [cellAt, mkConv2, dictGet_cons_self]

theorem pairs_c2 {rk ck r0 r1 : String} (convs : List (List Dict))
    (hshape : ∀ cv ∈ convs, ∃ h g, cv = mkConv2 rk ck r0 r1 h g) :
    convs.filterMap (fun cv =>
        match cellAt (some rk) cv 0, cellAt (some rk) cv 1 with
        | some a, some b => some (a, b)
        | _, _ => none)
      = convs.map (fun _ => ((r0, r1) : String × String)) := by
  induction convs with
  | nil => rfl
  | cons cv rest ih =>
    obtain ⟨h, g, rfl⟩ := hshape cv (List.mem_cons_self cv rest)
    simp only [List.filterMap_cons, List.map_cons, cellAt_c2_0, cellAt_c2_1]
    rw [ih (fun u hu => hshape u (List.mem_cons_of_mem _ hu))]

theorem mostFrequent_const [BEq α] [LawfulBEq α] (l : List α) (x : α) (hne : l ≠ [])
    (hconst : ∀ y ∈ l, y = x) : mostFrequent l = some x := by
  have huniq : uniqFirst l = [x] := by
    match l, hne with
    | y :: rest, _ =>
      have hy := hconst y (List.mem_cons_self y rest)
      subst hy
      unfold uniqFirst
      rw [uniqFirstAux]
      simp only [List.contains, List.elem_nil, Bool.false_eq_true, if_false]
      congr 1
      refine uniqFirstAux_eq_nil rest [y] (fun z hz => ?_)
      have hzx := hconst z (List.mem_cons_of_mem _ hz)
      subst hzx
      simp [List.contains]
  unfold mostFrequent
  rw [huniq]
  rfl

/-- The `ConvProps` value the normalizer infers on a two-position
column with role key `rk`, content key `ck` and consistent role values
`(r0, r1)`. -/
def c2Props (col rk ck r0 r1 : String) : ConvProps :=
  { column := some col, role_key := some rk, content_key := some ck,
    has_system := false,
    roles_map := [(some r0, Role.user), (some r1, Role.assistant)] }

/-- The `ConvProps` value the normalizer infers on a consistent
human/gpt sample in `{"from", "value"}` turn dicts. -/
def hgProps : ConvProps := c2Props "conversations" "from" "value" "human" "gpt"

theorem getConvRoles_c2 {rk ck r0 r1 : String} (convs : List (List Dict))
    (hne : convs ≠ [])
    (hshape : ∀ cv ∈ convs, ∃ h g, cv = mkConv2 rk ck r0 r1 h g)
    (h01 : r0 ≠ r1) (p : ConvProps) (c : String)
    (hcol : p.column = some c) (hrk : p.role_key = some rk)
    (hhs : p.has_system = false) :
    getConvRoles convs p = .ok [(some r0, Role.user), (some r1, Role.assistant)] := by
  have hml : maxLen convs = 2 :=
    maxLen_const 2 hne (fun cv hcv => by obtain ⟨h, g, rfl⟩ := hshape cv hcv; rfl)
  have hc1 : ((p.has_system = true ∧ 3 ≤ maxLen convs) : Prop) = False := by
    rw [hhs, hml]
    simp
  have hc2 : ((maxLen convs = 2) : Prop) = True := by
    rw [hml]
    simp
  have hpy : pyDict [(some r0, Role.user), (some r1, Role.assistant)]
      = [(some r0, Role.user), (some r1, Role.assistant)] := by
    simp [pyDict, pyInsert, h01]
  unfold getConvRoles
  rw [hcol]
  simp only [hrk, hc1, hc2, if_false, if_true]
  rw [pairs_c2 convs hshape]
  rw [mostFrequent_const (convs.map fun _ => ((r0, r1) : String × String))
    (r0, r1) (by simpa using hne) (by simp)]
  simp only [hpy]

theorem roleKeyOf_c2 {rk ck r0 r1 : String} (convs : List (List Dict))
    (hne : convs.take 1000 ≠ [])
    (hshape : ∀ cv ∈ convs.take 1000, ∃ h g, cv = mkConv2 rk ck r0 r1 h g)
    (h01 : r0 ≠ r1) :
    roleKeyOf (flatSample convs) = some rk := by
  have hcols : colOrder (flatSample convs) = [rk, ck] := colOrder_c2 hne hshape
  have hnu : nunique (flatSample convs) rk = 2 := nunique_c2 hne hshape h01
  unfold roleKeyOf
  rw [hcols, List.filter_cons]
  have hfrom : (decide (nunique (flatSample convs) rk = 1
      ∨ nunique (flatSample convs) rk = 2
      ∨ nunique (flatSample convs) rk = 3)) = true := by
    rw [hnu]
    decide
  simp only [hfrom, if_true, List.head?_cons]

theorem contentKeyOf_c2 {rk ck r0 r1 : String} (convs : List (List Dict))
    (hne : convs.take 1000 ≠ [])
    (hshape : ∀ cv ∈ convs.take 1000, ∃ h g, cv = mkConv2 rk ck r0 r1 h g)
    (h01 : r0 ≠ r1) :
    contentKeyOf (flatSample convs) = some ck := by
  have hcols : colOrder (flatSample convs) = [rk, ck] := colOrder_c2 hne hshape
  unfold contentKeyOf
  rw [roleKeyOf_c2 convs hne hshape h01]
  show (sortAsc (fun k => nunique (flatSample convs) k)
    ((colOrder (flatSample convs)).erase rk)).getLast? = some ck
  rw [hcols, List.erase_cons_head]
  rfl

theorem getConvProp_c2 {rk ck r0 r1 : String} (col : String)
    (convs : List (List Dict)) (hne : convs ≠ [])
    (hshape : ∀ cv ∈ convs, ∃ h g, cv = mkConv2 rk ck r0 r1 h g)
    (h01 : r0 ≠ r1) :
    getConvProp col convs = .ok (c2Props col rk ck r0 r1) := by
  have htne : convs.take 1000 ≠ [] := by
    match convs, hne with
    | cv :: rest, _ => simp
  have htshape : ∀ cv ∈ convs.take 1000, ∃ h g, cv = mkConv2 rk ck r0 r1 h g :=
    fun cv hcv => hshape cv (List.mem_of_mem_take hcv)
  have hnu : nunique (flatSample convs) rk = 2 := nunique_c2 htne htshape h01
  have hbase : convBase col convs rk
      = { column := some col, role_key := some rk,
          content_key := some ck, has_system := false, roles_map := [] } := by
    unfold convBase
    rw [contentKeyOf_c2 convs htne htshape h01]
    have h3 : (decide (nunique (flatSample convs) rk = 3)) = false := by
      rw [hnu]
      decide
    rw [h3]
  have hroles : getConvRoles convs (convBase col convs rk)
      = .ok [(some r0, Role.user), (some r1, Role.assistant)] := by
    refine getConvRoles_c2 convs hne hshape h01 _ col ?_ ?_ ?_ <;> rw [hbase]
  unfold getConvProp
  rw [roleKeyOf_c2 convs htne htshape h01]
  rw [hbase] at hroles
  simp only [hbase, hroles]
  rfl

theorem getConvProp_hg (convs : List (List Dict)) (hne : convs ≠ [])
    (hshape : ∀ cv ∈ convs, ∃ h g, cv = mkConvHG h g) :
    getConvProp "conversations" convs = .ok hgProps :=
  getConvProp_c2 "conversations" convs hne hshape (by decide)

/-- Claim C1: on a column whose values are two-turn
`{"from","value"}` conversations consistently showing the role
sequence `("human", "gpt")`, the Conversation-Object Normalizer
resolves role key `from` and content key `value`, its 2-position branch
infers `human -> user` and `gpt -> assistant`, and `standardize` maps
each conversation to
`[{"role":"user","content":h},{"role":"assistant","content":g}]`. -/
theorem C1_conv_two_position_branch (convs : List (List Dict))
    (hne : convs ≠ [])
    (hshape : ∀ cv ∈ convs, ∃ h g, cv = mkConvHG h g) :
    getConvProp "conversations" convs = .ok hgProps
    ∧ hgProps.isValid = true
    ∧ ∀ h g, standardize hgProps (mkConvHG h g)
        = .ok [[("role", "user"), ("content", h)],
               [("role", "assistant"), ("content", g)]] :=
  ⟨getConvProp_hg convs hne hshape, by decide, fun h g => rfl⟩

/-- Witness for C1 at a one-row sample. -/
theorem C1_witness :
    getConvProp "conversations" [mkConvHG "hi" "hello"] = .ok hgProps
    ∧ hgProps.isValid = true
    ∧ ∀ h g, standardize hgProps (mkConvHG h g)
        = .ok [[("role", "user"), ("content", h)],
               [("role", "assistant"), ("content", g)]] :=
  C1_conv_two_position_branch [mkConvHG "hi" "hello"] (by simp)
    (by intro cv hcv
        simp only [List.mem_singleton] at hcv
        exact ⟨"hi", "hello", hcv⟩)

/-- Claim C6: when the reshaped role values occupy exactly one
position-column, the inferred roles map binds the single observed role
value to `user` — for every value `v`, including the literals
`"system"`, `"instruction"`, `"instructions"`: the special-case
assignment to `system` is immediately overwritten by the unconditional
assignment to `user` and never takes effect. -/
theorem C6_conv_single_position_binds_user (p : ConvProps) (c : String)
    (convs : List (List Dict)) (v : String)
    (hcol : p.column = some c)
    (hne : convs ≠ [])
    (hlen : ∀ cv ∈ convs, cv.length = 1)
    (hv : cellAt p.role_key (convs.headD []) 0 = some v) :
    getConvRoles convs p = .ok [(some v, Role.user)] := by
  obtain ⟨cv, rest, rfl⟩ : ∃ cv rest, convs = cv :: rest := by
    cases convs with
    | nil => exact absurd rfl hne
    | cons cv rest => exact ⟨cv, rest, rfl⟩
  have hml : maxLen (cv :: rest) = 1 := maxLen_const 1 hne hlen
  have hc1 : ((p.has_system = true ∧ 3 ≤ maxLen (cv :: rest)) : Prop) = False := by
    rw [hml]
    simp
  have hc2 : ((maxLen (cv :: rest) = 2) : Prop) = False := by
    rw [hml]
    simp
  have hc3 : ((maxLen (cv :: rest) = 1) : Prop) = True := by
    rw [hml]
    simp
  have hv2 : cellAt p.role_key cv 0 = some v := hv
  unfold getConvRoles
  rw [hcol]
  simp only [hc1, hc2, hc3, if_false, if_true, hv2, ite_self]
  rfl

/-- Witness for C6 at a one-conversation column whose single role value
is the literal `"system"`: it is still bound to `user`. -/
theorem C6_witness :
    getConvRoles [[[("from", "system"), ("value", "be nice")]]]
      { column := some "messages", role_key := some "from",
        content_key := some "value", has_system := false, roles_map := [] }
      = .ok [(some "system", Role.user)] :=
  C6_conv_single_position_binds_user _ "messages" _ "system" rfl (by simp)
    (by intro cv hcv
        simp only [List.mem_singleton] at hcv
        rw [hcv]
        rfl)
    rfl

/-! ## Merger (`app/format/merger.py`) -/

/-- `FieldConfig`. -/
structure FieldConfig where
  fields : Option (List String) := none
  separator : String := " "
  merged_field : Option String := none
deriving DecidableEq, Repr

/-- `MergerFormatConfig`: three optional field groups (all present by
default) and the column-removal flag. -/
structure MergerFormatConfig where
  system : Option FieldConfig := some { merged_field := some "system" }
  user : Option FieldConfig := some { merged_field := some "user" }
  assistant : Option FieldConfig := some { merged_field := some "assistant" }
  remove_other_cols : Bool := false
deriving DecidableEq, Repr

/-- Dereference an optional sub-config (`None.fields` raises
`AttributeError`). -/
def attrE (fc : Option FieldConfig) : Except String FieldConfig :=
  match fc with
  | none => .error "AttributeError: NoneType object has no attribute fields"
  | some f => .ok f

/-- Python truthiness of `field_config.fields`: `None` and `[]` are
falsy. -/
def fieldsFalsy (fc : FieldConfig) : Bool :=
  match fc.fields with
  | none => true
  | some l => l.isEmpty

/-- `dataset.column_names` (the schema is uniform; read off the first
row). -/
def datasetColumns (ds : Dataset) : List String := (ds.headD []).map (·.1)

/-- `config_fields` of a fully-present config: the union (here simply
the concatenation; only membership is ever used) of the three field
lists. -/
def configFieldsOf (sys usr ast : FieldConfig) : List String :=
  sys.fields.getD [] ++ usr.fields.getD [] ++ ast.fields.getD []

/-- `MergerFormat.is_this_format`, with the source's evaluation order:
the all-`None` short-circuit, then the emptiness check (dereferencing
sub-configs left to right, so a `None` sub-config raises once the check
reaches it), then `config_fields ⊆ column_names`. -/
def mergerIsThisFormat (cfg : MergerFormatConfig) (columns : List String) :
    Except String Bool := do
  if cfg.system.isNone && cfg.user.isNone && cfg.assistant.isNone then
    return false
  let sys ← attrE cfg.system
  let cond2 ←
    if fieldsFalsy sys then do
      let usr ← attrE cfg.user
      if fieldsFalsy usr then do
        let ast ← attrE cfg.assistant
        pure (fieldsFalsy ast)
      else
        pure false
    else
      pure false
  if cond2 then
    return false
  let usr ← attrE cfg.user
  let ast ← attrE cfg.assistant
  if (configFieldsOf sys usr ast).all (fun f => columns.contains f) then
    return true
  return false

/-- `str.join`. -/
def sepJoin (sep : String) : List String → String
  | [] => ""
  | [x] => x
  | x :: xs => x ++ sep ++ sepJoin sep xs

/-- `MergerFormat._merge_field_vals`: join the row's string values of
the listed fields with the separator (missing or non-string values are
skipped). -/
def mergeFieldVals (row : Record) (fc : FieldConfig) : String :=
  sepJoin fc.separator ((fc.fields.getD []).filterMap (fun f =>
    match recGet row f with
    | some (.vstr s) => some s
    | _ => none))

/-- `MergerFormat._apply_field_config`. -/
def applyFieldConfig (ds : Dataset) (fc : FieldConfig) : Dataset :=
  match fc.fields, fc.merged_field with
  | none, _ => ds
  | some _, none => ds
  | some _, some mf =>
    ds.map (fun row => pyUpdate row [(mf, .vstr (mergeFieldVals row fc))])

/-- Python `x or default` on an optional string (`None` and `""` are
falsy). -/
def orDefault (m : Option String) (d : String) : String :=
  match m with
  | none => d
  | some s => if s = "" then d else s

/-- `MergerFormat._format`, applicable branch: backfill default
destination names, apply the three field configs in order, then
optionally remove the grouped source columns that are not destination
columns. -/
def mergerFormatTrue (cfg : MergerFormatConfig) (ds : Dataset) :
    Except String Dataset := do
  let sys0 ← attrE cfg.system
  let usr0 ← attrE cfg.user
  let ast0 ← attrE cfg.assistant
  let sys := { sys0 with merged_field := some (orDefault sys0.merged_field "system") }
  let usr := { usr0 with merged_field := some (orDefault usr0.merged_field "user") }
  let ast := { ast0 with merged_field := some (orDefault ast0.merged_field "assistant") }
  let ds1 := applyFieldConfig (applyFieldConfig (applyFieldConfig ds sys) usr) ast
  if cfg.remove_other_cols then
    let merged := [orDefault sys0.merged_field "system",
      orDefault usr0.merged_field "user", orDefault ast0.merged_field "assistant"]
    let toRemove := (configFieldsOf sys usr ast).filter (fun f => !merged.contains f)
    .ok (ds1.map (fun row => row.filter (fun kv => !toRemove.contains kv.1)))
  else
    .ok ds1

/-- The Merger stage end to end: `__init__` samples the dataset
(raising on an empty one), an absent config makes `format()` the
identity, an inapplicable config passes the dataset through. -/
def mergerStageFormat (cfg : Option MergerFormatConfig) (ds : Dataset) (ix : Nat) :
    Except String Dataset := do
  let _ ← sampleRecord ds ix
  match cfg with
  | none => .ok ds
  | some c => do
    let b ← mergerIsThisFormat c (datasetColumns ds)
    if b then mergerFormatTrue c ds else .ok ds

/-- `merger | sft` (`BaseFormat.__or__`): the SFT stage is constructed
on exactly `merger.format()`. -/
def mergerThenSFTInit (mcfg : Option MergerFormatConfig) (scfg : Option SFTConfig)
    (ds : Dataset) (ixm ixs : Nat) : Except String SFTState := do
  let d ← mergerStageFormat mcfg ds ixm
  sftInit scfg d ixs

theorem mergerIsThisFormat_ok_false (sys usr ast : FieldConfig) (rm : Bool)
    (cols : List String)
    (hcond : (fieldsFalsy sys && fieldsFalsy usr && fieldsFalsy ast) = true
      ∨ ((configFieldsOf sys usr ast).all (fun f => cols.contains f)) = false) :
    mergerIsThisFormat ⟨some sys, some usr, some ast, rm⟩ cols = .ok false := by
  rcases hcond with hall | hsub
  · obtain ⟨⟨h1, h2⟩, h3⟩ : (fieldsFalsy sys = true ∧ fieldsFalsy usr = true)
        ∧ fieldsFalsy ast = true := by
      simpa [Bool.and_eq_true] using hall
    simp [mergerIsThisFormat, attrE, h1, h2, h3, ok_bind]
    rfl
  · by_cases f1 : fieldsFalsy sys
      <;> by_cases f2 : fieldsFalsy usr
      <;> by_cases f3 : fieldsFalsy ast
      <;> simp [mergerIsThisFormat, attrE, f1, f2, f3, ok_bind, hsub]
      <;> first
        | rfl
        | (rw [if_neg (by simpa using hsub)]
           rfl)

/-- Counterexample to C7 as stated: on the empty dataset (whose column
set trivially lacks any configured source column, and whose default
config has no non-empty field group) the Merger stage raises
`ValueError` in its constructor instead of passing the dataset
through. -/
theorem C7_counterexample :
    mergerStageFormat (some {}) ([] : Dataset) 0
      = .error "ValueError: empty range in randrange" := rfl

/-- Claim C7 (amended): for every NONEMPTY dataset and every Merger
config whose three field groups are present, if the configured source
columns are not all dataset columns, or no field group is non-empty,
then the Merger stage returns the dataset unchanged and the chain
constructs the SFT stage on exactly that same dataset. -/
theorem C7_merger_passthrough (sys usr ast : FieldConfig) (rm : Bool)
    (ds : Dataset) (ixm ixs : Nat) (scfg : Option SFTConfig)
    (hne : ds ≠ [])
    (hcond : (fieldsFalsy sys && fieldsFalsy usr && fieldsFalsy ast) = true
      ∨ ((configFieldsOf sys usr ast).all (fun f => (datasetColumns ds).contains f)) = false) :
    mergerStageFormat (some ⟨some sys, some usr, some ast, rm⟩) ds ixm = .ok ds
    ∧ mergerThenSFTInit (some ⟨some sys, some usr, some ast, rm⟩) scfg ds ixm ixs
        = sftInit scfg ds ixs := by
  obtain ⟨rep, hs, _⟩ := sampleRecord_mem ds ixm hne
  have hitf := mergerIsThisFormat_ok_false sys usr ast rm (datasetColumns ds) hcond
  have hfmt : mergerStageFormat (some ⟨some sys, some usr, some ast, rm⟩) ds ixm = .ok ds := by
    simp only [mergerStageFormat, hs, ok_bind, hitf]
    rfl
  exact ⟨hfmt, by simp only [mergerThenSFTInit, hfmt, ok_bind]⟩

/-- Witness for C7 at the default config (no field group configured)
over a one-row dataset. -/
theorem C7_witness :
    ([([("a", Value.vstr "x")] : Record)] : Dataset) ≠ []
    ∧ (mergerStageFormat
        (some ⟨some { merged_field := some "system" },
               some { merged_field := some "user" },
               some { merged_field := some "assistant" }, false⟩)
        [[("a", Value.vstr "x")]] 0 = .ok [[("a", Value.vstr "x")]]
      ∧ mergerThenSFTInit
          (some ⟨some { merged_field := some "system" },
                 some { merged_field := some "user" },
                 some { merged_field := some "assistant" }, false⟩)
          (some {}) [[("a", Value.vstr "x")]] 0 0
          = sftInit (some {}) [[("a", Value.vstr "x")]] 0) :=
  ⟨by simp,
   C7_merger_passthrough _ _ _ false [[("a", Value.vstr "x")]] 0 0 (some {})
     (by simp) (Or.inl (by decide))⟩

/-- Counterexample to C8 as stated: constructing the SFT stage with an
absent (`None`) config raises `AttributeError` (the constructor
dereferences `config.column_role_map`) instead of disabling the
stage. -/
theorem C8_counterexample :
    sftInit none [[("a", Value.vstr "x")]] 0
      = .error "AttributeError: NoneType object has no attribute column_role_map" := rfl

/-- Claim C8 (amended): an absent (`None`) config disables the Merger
stage, and the Conversational stage when its (config-independent)
detection pass succeeds — `format` returns the input unchanged without
raising — but the SFT and DPO stages raise `AttributeError` at
construction, because their constructors dereference
`config.column_role_map`. (On an empty dataset every constructor
raises `ValueError` instead.) -/
theorem C8_none_config (ds : Dataset) (ix : Nat) (hne : ds ≠ [])
    (hdet : ∃ st, convInit ds ix = .ok st) :
    mergerStageFormat none ds ix = .ok ds
    ∧ convStage none ds ix = .ok ds
    ∧ (∃ e, sftInit none ds ix = .error e)
    ∧ (∃ e, dpoInit none ds ix = .error e) := by
  obtain ⟨rep, hs, _⟩ := sampleRecord_mem ds ix hne
  refine ⟨?_, ?_, ?_, ?_⟩
  · simp only [mergerStageFormat, hs, ok_bind]
  · obtain ⟨st, hst⟩ := hdet
    simp only [convStage, hst, ok_bind]
  · exact ⟨"AttributeError: NoneType object has no attribute column_role_map",
      by simp only [sftInit, hs, ok_bind]⟩
  · exact ⟨"AttributeError: NoneType object has no attribute column_role_map",
      by simp only [dpoInit, hs, ok_bind]⟩

/-- Witness for C8 on a one-row dataset whose single column IS a
conversation column: the detection pass runs (and succeeds) regardless
of the absent config, and `format()` is still the identity. -/
theorem C8_witness :
    mergerStageFormat none
        [[("messages", Value.vlist [[("from", "human"), ("value", "hi")],
            [("from", "gpt"), ("value", "hello")]])]] 0
      = .ok [[("messages", Value.vlist [[("from", "human"), ("value", "hi")],
            [("from", "gpt"), ("value", "hello")]])]]
    ∧ convStage none
        [[("messages", Value.vlist [[("from", "human"), ("value", "hi")],
            [("from", "gpt"), ("value", "hello")]])]] 0
      = .ok [[("messages", Value.vlist [[("from", "human"), ("value", "hi")],
            [("from", "gpt"), ("value", "hello")]])]]
    ∧ (∃ e, sftInit none
        [[("messages", Value.vlist [[("from", "human"), ("value", "hi")],
            [("from", "gpt"), ("value", "hello")]])]] 0 = .error e)
    ∧ (∃ e, dpoInit none
        [[("messages", Value.vlist [[("from", "human"), ("value", "hi")],
            [("from", "gpt"), ("value", "hello")]])]] 0 = .error e) :=
  C8_none_config
    [[("messages", Value.vlist [[("from", "human"), ("value", "hi")],
        [("from", "gpt"), ("value", "hello")]])]] 0 (by simp)
    ⟨⟨[("messages", Value.vlist [[("from", "human"), ("value", "hi")],
          [("from", "gpt"), ("value", "hello")]])],
      [c2Props "messages" "from" "value" "human" "gpt"]⟩, rfl⟩

/-! ## C9: stages and data that do not match -/

theorem mapME_ok_of_all {f : α → Except String β} (l : List α)
    (H : ∀ x ∈ l, ∃ y, f x = .ok y) : ∃ out, mapME f l = .ok out := by
  induction l with
  | nil => exact ⟨[], rfl⟩
  | cons x xs ih =>
    obtain ⟨y, hy⟩ := H x (List.mem_cons_self x xs)
    obtain ⟨ys, hys⟩ := ih (fun u hu => H u (List.mem_cons_of_mem x hu))
    exact ⟨y :: ys, by simp only [mapME, hy, hys, ok_bind]⟩

/-- Counterexample to C9 as stated: normalizing a row whose role value
(`"gpt"`) was unseen in the detection sample (roles map only knows
`"human"`) raises `KeyError` inside `ConvProps.standardize`. -/
theorem C9_counterexample :
    standardize
      { column := some "messages", role_key := some "from",
        content_key := some "value", has_system := false,
        roles_map := [(some "human", Role.user)] }
      [[("from", "gpt"), ("value", "hi")]]
      = .error "KeyError: unseen role value gpt" := rfl

/-- Claim C9 (amended): stages pass non-matching data through rather
than raising — the SFT and DPO stages return the dataset unchanged
whenever their detection is false — and `standardize` does not raise
provided every row's role value was seen in the detection sample (and
its role/content keys are present); it raises `KeyError` otherwise, and
every stage constructor raises `ValueError` on an empty dataset. -/
theorem C9_inapplicable_no_raise :
    (∀ (colO : Option String) (rk ck : String) (hsb : Bool)
        (rmap : List (Option String × Role)) (conv : List Dict),
      rmap ≠ [] →
      (∀ m ∈ conv, ∃ rv role cv, dictGet m rk = some rv
        ∧ alGet rmap (some rv) = some role ∧ dictGet m ck = some cv) →
      ∃ out, standardize ⟨colO, some rk, some ck, hsb, rmap⟩ conv = .ok out)
    ∧ (∀ (st : SFTState) (ds : Dataset),
        sftIsThisFormat st.roleColMap = false → sftStageFormat st ds = .ok ds)
    ∧ (∀ (st : DPOState) (ds : Dataset),
        dpoIsThisFormat st.colMap = false → dpoStageFormat st ds = .ok ds) := by
  refine ⟨?_, ?_, ?_⟩
  · intro colO rk ck hsb rmap conv hrm hall
    have hval : ConvProps.isValid ⟨colO, some rk, some ck, hsb, rmap⟩ = true := by
      match rmap, hrm with
      | r :: rest, _ => rfl
    unfold standardize
    rw [hval, if_neg (by simp)]
    refine mapME_ok_of_all conv (fun m hm => ?_)
    obtain ⟨rv, role, cv, h1, h2, h3⟩ := hall m hm
    exact ⟨[("role", role.value), ("content", cv)],
      by simp only [dictGetE, h1, h2, h3, ok_bind]⟩
  · intro st ds hf
    simp only [sftStageFormat, hf, Bool.false_eq_true, if_false]
  · intro st ds hf
    simp only [dpoStageFormat, hf, Bool.false_eq_true, if_false]

/-- Witness for C9: a standardization whose role values are all in the
map succeeds, and stages whose detection is false pass a concrete
dataset through. -/
theorem C9_witness :
    (∃ out, standardize
        ⟨some "messages", some "from", some "value", false, [(some "human", Role.user)]⟩
        [[("from", "human"), ("value", "hi")]] = .ok out)
    ∧ sftStageFormat ⟨[], []⟩ [[("a", Value.vstr "x")]] = .ok [[("a", Value.vstr "x")]]
    ∧ dpoStageFormat ⟨[], []⟩ [[("a", Value.vstr "x")]] = .ok [[("a", Value.vstr "x")]] :=
  ⟨C9_inapplicable_no_raise.1 (some "messages") "from" "value" false
      [(some "human", Role.user)] [[("from", "human"), ("value", "hi")]]
      (by simp)
      (by intro m hm
          simp only [List.mem_singleton] at hm
          subst hm
          exact ⟨"human", Role.user, "hi", rfl, rfl, rfl⟩),
   C9_inapplicable_no_raise.2.1 ⟨[], []⟩ [[("a", Value.vstr "x")]] rfl,
   C9_inapplicable_no_raise.2.2 ⟨[], []⟩ [[("a", Value.vstr "x")]] rfl⟩

/-! ## C5: re-detection on a detector's own output -/

theorem sampleRecord_singleton (r : Record) (ix : Nat) :
    sampleRecord [r] ix = .ok r := by
  obtain ⟨rep, hs, hmem⟩ := sampleRecord_mem [r] ix (by simp)
  simp only [List.mem_singleton] at hmem
  rwa [hmem] at hs

/-- Counterexample to C5 as stated: running the SFT detector on its own
output (a question/answer dataset with the `messages` column added) and
re-instantiating it: `is_this_format` is `true` again, because the
original `question`/`answer` columns are still present and still match
the pattern table. -/
theorem C5_counterexample :
    ((sftStage (some {}) [mkRowQA "2+2?" "4"] 0).bind (fun ds1 =>
      (sftInit (some {}) ds1 0).bind (fun st2 =>
        .ok (sftIsThisFormat st2.roleColMap))))
      = .ok true := rfl

/-- The canonical messages the SFT stage writes for a
question/answer row. -/
def msgsQA (q a : String) : List Dict :=
  [[("role", "user"), ("content", q)], [("role", "assistant"), ("content", a)]]

/-- A question/answer row after the SFT transformation. -/
def sftOutRow (q a : String) : Record :=
  mkRowQA q a ++ [("messages", .vlist (msgsQA q a))]

/-- A prompt/chosen/rejected row after the DPO transformation. -/
def dpoOutRow (p c r : String) : Record :=
  [("prompt", .vstr p), ("chosen", .vlist (pcrMessages p c)),
   ("rejected", .vlist (pcrMessages p r))]

/-- A single-conversation-column row before normalization. -/
def convInRow (h g : String) : Record :=
  [("messages", .vlist (mkConv2 "from" "value" "human" "gpt" h g))]

/-- A single-conversation-column row after normalization. -/
def convOutRow (h g : String) : Record :=
  [("messages", .vlist (mkConv2 "role" "content" "user" "assistant" h g))]

theorem dictEqB_refl (d : Dict) : dictEqB d d = true := by
  simp [dictEqB, List.all_eq_true]

theorem pyDedup_uuac (p x : String) :
    pyDedupDicts [[("role", "user"), ("content", p)],
        [("role", "user"), ("content", p)],
        [("role", "assistant"), ("content", x)]]
      = [[("role", "user"), ("content", p)],
         [("role", "assistant"), ("content", x)]] := by
  have hne : dictEqB [("role", "user"), ("content", p)]
      [("role", "assistant"), ("content", x)] = false := rfl
  simp only [pyDedupDicts, List.foldl_cons, List.foldl_nil, List.any_cons,
    List.any_nil, dictEqB_refl, hne, Bool.or_false, Bool.false_eq_true,
    if_false, if_true, List.nil_append, List.cons_append]

/-- The DPO state after re-instantiating on `dpoOutRow`. -/
def dpoSt2 (p c r : String) : DPOState :=
  ⟨dpoOutRow p c r,
   [(DPOCol.user, "prompt"), (DPOCol.chosen, "chosen"), (DPOCol.rejected, "rejected")]⟩

theorem dpo_second_row (p c r : String) :
    dpoFormatRow (dpoSt2 p c r) (dpoOutRow p c r) = .ok (dpoOutRow p c r) := by
  have hch : convertRowToMessages (dpoSt2 p c r) (dpoOutRow p c r) .chosen
      = .ok (pcrMessages p c) := by
    have hstep : convertRowToMessages (dpoSt2 p c r) (dpoOutRow p c r) .chosen
        = .ok (pyDedupDicts [[("role", "user"), ("content", p)],
            [("role", "user"), ("content", p)],
            [("role", "assistant"), ("content", c)]]) := rfl
    rw [hstep, pyDedup_uuac]
    rfl
  have hrj : convertRowToMessages (dpoSt2 p c r) (dpoOutRow p c r) .rejected
      = .ok (pcrMessages p r) := by
    have hstep : convertRowToMessages (dpoSt2 p c r) (dpoOutRow p c r) .rejected
        = .ok (pyDedupDicts [[("role", "user"), ("content", p)],
            [("role", "user"), ("content", p)],
            [("role", "assistant"), ("content", r)]]) := rfl
    rw [hstep, pyDedup_uuac]
    rfl
  unfold dpoFormatRow convertChosenRejected
  rw [hch, ok_bind, hrj, ok_bind, ok_bind]
  rfl

/-- Claim C5 (amended): re-instantiating a detector on its own output
does NOT leave `is_this_format` false — for the SFT, Preference-Pair
and Conversational detectors it is `true` again, because the original
columns (or the canonical shape itself) still match; however
re-applying the transformation returns the dataset unchanged on the
canonical single-row families (question/answer; prompt/chosen/rejected;
a single two-turn `messages` conversation column). -/
theorem C5_redetect_but_transform_idempotent
    (q a p c r h g : String) (ix jx : Nat) :
    (sftStage (some {}) [mkRowQA q a] ix = .ok [sftOutRow q a]
      ∧ sftStage (some {}) [sftOutRow q a] jx = .ok [sftOutRow q a]
      ∧ ∃ st2, sftInit (some {}) [sftOutRow q a] jx = .ok st2
          ∧ sftIsThisFormat st2.roleColMap = true)
    ∧ (dpoStage (some {}) [mkRowPCR p c r] ix = .ok [dpoOutRow p c r]
      ∧ dpoStage (some {}) [dpoOutRow p c r] jx = .ok [dpoOutRow p c r]
      ∧ ∃ st2, dpoInit (some {}) [dpoOutRow p c r] jx = .ok st2
          ∧ dpoIsThisFormat st2.colMap = true)
    ∧ (convStage (some {}) [convInRow h g] ix = .ok [convOutRow h g]
      ∧ convStage (some {}) [convOutRow h g] jx = .ok [convOutRow h g]
      ∧ ∃ st2, convInit [convOutRow h g] jx = .ok st2
          ∧ convIsThisFormat st2 = true) := by
  refine ⟨⟨?_, ?_, ?_⟩, ⟨?_, ?_, ?_⟩, ⟨?_, ?_, ?_⟩⟩
  · simp only [sftStage, sftInit, sampleRecord_singleton, ok_bind]
    rfl
  · simp only [sftStage, sftInit, sampleRecord_singleton, ok_bind]
    rfl
  · refine ⟨⟨sftOutRow q a, [(Role.user, "question"), (Role.assistant, "answer")]⟩, ?_, rfl⟩
    simp only [sftInit, sampleRecord_singleton, ok_bind]
    rfl
  · simp only [dpoStage, dpoInit, sampleRecord_singleton, ok_bind]
    rfl
  · simp only [dpoStage, dpoInit, sampleRecord_singleton, ok_bind]
    show dpoStageFormat (dpoSt2 p c r) [dpoOutRow p c r] = .ok [dpoOutRow p c r]
    show mapME (dpoFormatRow (dpoSt2 p c r)) [dpoOutRow p c r] = .ok [dpoOutRow p c r]
    simp only [mapME, dpo_second_row, ok_bind]
  · refine ⟨dpoSt2 p c r, ?_, rfl⟩
    simp only [dpoInit, sampleRecord_singleton, ok_bind]
    rfl
  · simp only [convStage, convInit, sampleRecord_singleton, ok_bind]
    rfl
  · simp only [convStage, convInit, sampleRecord_singleton, ok_bind]
    rfl
  · refine ⟨⟨convOutRow h g, [c2Props "messages" "role" "content" "user" "assistant"]⟩, ?_, rfl⟩
    simp only [convInit, sampleRecord_singleton, ok_bind]
    rfl

end DatasetPipeline
